import Mathlib

/-!
Verification of the transaction-logging subsystem of a key-value store.

The program keeps an in-memory map (a Go `map[string]string` guarded by a
reader/writer lock), durably records every mutation as an `Event` in an
append-only log, and replays that log at startup.  `src/main.go` holds the
store operations (`Put`, `Get`, `Delete`), the HTTP handlers and the startup
replay routine `initializeTransactionLog`; `src/db.go` holds the relational
(Postgres) transaction logger: construction (`NewPostgresTransactionLogger`,
`verifyTableExists`, `createTable`), submission (`WritePut`, `WriteDelete`),
replay streaming (`ReadEvents`) and the asynchronous writer (`Run`).

The embedding below is sequential: Go channels become explicit queues
(lists) and buffers with their capacities, goroutine interleavings become
explicit message traces, and the external database becomes an explicit list
of rows plus injected outcomes for queries and inserts.  Machine integers
(the BIGSERIAL sequence) are modelled as `Nat`; the logs involved are tiny
and never approach 2^63, so no wrap-around modelling is needed.
-/

namespace KVLog

/-! ## Event model

Modelled from the spec: the `Event` struct and the `EventType` constants
live in the file-backend source file, which is not among the provided
sources (only `db.go` and `main.go` are); `db.go` reads and writes the
fields `Sequence`, `EventType`, `Key`, `Value` and the constants
`EventPut` / `EventDelete`.  The spec fixes the enum as {Put, Delete}
encoded as small integers ("Put=0/Delete=1 or equivalent", section 6) and
says malformed enumerated values are invalid (section 4.1).  We use the
nonzero encoding Delete=1, Put=2, so that the zero value of the Go
`EventType` (which arises when receiving from a closed events channel) is
not a valid operation; this matches section 4.1 and keeps the zero value
distinguishable from real operations. -/

structure Event where
  Sequence : Nat
  EventType : Nat
  Key : String
  Value : String
deriving DecidableEq, Repr

def EventDelete : Nat := 1

def EventPut : Nat := 2

/-! ## In-memory store

`src/main.go` lines 14-17: a `map[string]string` under a RWMutex.  We model
the map as an association list with at most one binding per key (Go map
semantics: assignment overwrites in place, `delete` removes the binding,
lookup returns the binding when present). -/

abbrev Store : Type := List (String × String)

/-- Go map assignment `m[k] = v`: overwrite the existing binding in place,
or add a new binding when the key is absent. -/
def storePut : Store → String → String → Store
  | [], k, v => [(k, v)]
  | (k', v') :: rest, k, v =>
    if k' = k then (k, v) :: rest else (k', v') :: storePut rest k v

/-- Go map deletion `delete(m, k)`: remove the binding for `k` when present,
no-op otherwise. -/
def storeDel (m : Store) (k : String) : Store :=
  m.filter fun p => p.1 ≠ k

/-- Go map lookup `v, ok := m[k]`. -/
def storeGet : Store → String → Option String
  | [], _ => none
  | (k', v') :: rest, k => if k' = k then some v' else storeGet rest k

/-! ## Transaction logger state

The logger owns an events channel (the submission queue feeding the async
writer; `db.go` line 143 gives it capacity 16, and the spec models it as a
bounded queue) and the durable backend log (the `transactions` table).
`pending` holds submitted events that the writer has not yet persisted;
`log` holds the durable rows; `activated` records whether `Run()` has been
invoked, i.e. whether the asynchronous write pipeline is live.

`main.go` constructs the file-backend logger, whose source file is absent;
per the spec (section 4.2) its submission operations "enqueue a durable
Put/Delete without blocking on actual disk/database I/O", which is the same
enqueue semantics as `db.go`'s `WritePut`/`WriteDelete`, so one model
covers the logger used by `main.go` and the Postgres logger of `db.go`. -/

structure LoggerState where
  pending : List Event
  log : List Event
  activated : Bool
deriving DecidableEq, Repr

def freshLogger : LoggerState := ⟨[], [], false⟩

/-- `db.go` lines 56-58 (and spec section 4.2 `submitPut`): sending
`Event{EventType: EventPut, Key: key, Value: value}` on the events channel.
The struct literal leaves `Sequence` at its zero value; the backend assigns
the real sequence at persistence time. -/
def WritePut (l : LoggerState) (key value : String) : LoggerState :=
  { l with pending := l.pending ++ [⟨0, EventPut, key, value⟩] }

/-- `db.go` lines 60-62 (and spec section 4.2 `submitDelete`): sending
`Event{EventType: EventDelete, Key: key}`; `Value` stays at its zero
value `""`. -/
def WriteDelete (l : LoggerState) (key : String) : LoggerState :=
  { l with pending := l.pending ++ [⟨0, EventDelete, key, ""⟩] }

/-- `db.go` lines 142-167, the state change visible at the call site of
`Run()`: the channels are set up and the writer goroutine is started, so the
asynchronous write pipeline becomes live.  The writer's consumption of the
queue is modelled separately by `runWriter`. -/
def Run (l : LoggerState) : LoggerState :=
  { l with activated := true }

/-! ## Whole-program state and the store operations of `main.go` -/

structure SysState where
  store : Store
  lg : LoggerState
deriving DecidableEq, Repr

def freshSys : SysState := ⟨[], freshLogger⟩

/-- `main.go` lines 21-29: lock, `store.m[key] = value`, unlock, then
`logger.WritePut(key, value)`; returns `nil`. -/
def Put (st : SysState) (key value : String) : SysState × Option String :=
  ({ store := storePut st.store key value, lg := WritePut st.lg key value }, none)

/-- `main.go` lines 31-41: read the map under the read lock; missing key
yields `ErrorNoSuchKey`. -/
def Get (st : SysState) (key : String) : Option String × Option String :=
  match storeGet st.store key with
  | none => (none, some "no such key")
  | some v => (some v, none)

/-- `main.go` lines 43-51: lock, `delete(store.m, key)`, unlock, then
`logger.WriteDelete(key)`; returns `nil`. -/
def Delete (st : SysState) (key : String) : SysState × Option String :=
  ({ store := storeDel st.store key, lg := WriteDelete st.lg key }, none)

/-! ## The asynchronous writer (`db.go` `Run`, lines 149-166)

The goroutine ranges over the events channel; for each event it executes the
`INSERT INTO transactions (event_type, key, value) VALUES (...)`, letting
the BIGSERIAL primary key assign the next sequence number; on failure it
sends the error on the errors channel, which `db.go` line 144 creates with
capacity 1 (`make(chan error, 1)`).

A job is an event paired with the injected outcome of its `Exec` call
(`none` = insert succeeds, `some msg` = the driver reports `msg`).
`drained` says whether a consumer is promptly receiving from the errors
channel: if so, an error send never blocks and the error lands in
`reported`; if not, an error send buffers into `errBuf` while capacity
remains, and blocks the writer for good once the 1-slot buffer is full
(`leftover` then collects the events that are never dequeued). -/

structure WriterRun where
  log : List Event
  errBuf : List String
  reported : List String
  leftover : List Event
  attempted : Nat
deriving DecidableEq, Repr

def WriterRun.init (db : List Event) : WriterRun := ⟨db, [], [], [], 0⟩

/-- One successful `INSERT`: BIGSERIAL assigns the next sequence number. -/
def insertRow (log : List Event) (e : Event) : List Event :=
  log ++ [{ e with Sequence := log.length + 1 }]

def runWriter (drained : Bool) : List (Event × Option String) → WriterRun → WriterRun
  | [], w => w
  | (e, res) :: rest, w =>
    let w1 : WriterRun := { w with attempted := w.attempted + 1 }
    match res with
    | none => runWriter drained rest { w1 with log := insertRow w1.log e }
    | some msg =>
      if drained then
        runWriter drained rest { w1 with reported := w1.reported ++ [msg] }
      else if w1.errBuf.length < 1 then
        runWriter drained rest { w1 with errBuf := w1.errBuf ++ [msg] }
      else
        { w1 with leftover := rest.map Prod.fst }

/-! ## Replay streaming (`db.go` `ReadEvents`, lines 102-140)

The goroutine runs `SELECT sequence, event_type, key, value FROM
transactions ORDER BY sequence`, then loops over the rows: each row is
scanned into an `Event` and sent on the events channel; a scan failure
sends one error and returns; after the loop, `rows.Err()` is checked and,
when non-nil, sent as one error.  Both channels are closed when the
goroutine returns.

Inputs are the injected outcomes of the database interaction: the query
either fails with a message or yields a list of rows, each row either
scanning into an event or failing with a message; `rowsErr` is the value of
`rows.Err()` after a completed iteration.  The output is the pair (events
delivered on the events channel in order, errors delivered on the error
channel in order). -/

inductive ScanRow where
  | ok (e : Event)
  | bad (msg : String)
deriving DecidableEq, Repr

/-- The row loop of `ReadEvents` (`db.go` lines 122-136). -/
def readRows : List ScanRow → Option String → List Event × List String
  | [], rowsErr =>
    ([], match rowsErr with
         | some m => ["transaction log read failure: " ++ m]
         | none => [])
  | ScanRow.ok e :: rest, rowsErr =>
    let r := readRows rest rowsErr
    (e :: r.1, r.2)
  | ScanRow.bad m :: _, _ => ([], ["error reading row: " ++ m])

def ReadEvents (queryRes : Except String (List ScanRow)) (rowsErr : Option String) :
    List Event × List String :=
  match queryRes with
  | Except.error m => ([], ["sql query error: " ++ m])
  | Except.ok rows => readRows rows rowsErr

/-- The `ORDER BY sequence` of the replay query, applied to the table
contents. -/
def selectOrdered (db : List Event) : List Event :=
  db.insertionSort fun a b => a.Sequence ≤ b.Sequence

/-! ## Startup replay (`main.go` `initializeTransactionLog`, lines 120-147)

The loop `for ok && err == nil { select { ... } }` races the events channel
against the errors channel.  A trace is the sequence of channel deliveries
the select consumes, in order; `fromErrors none` / `fromEvents none` model
receiving from the respective closed channel (`ok` becomes false; a closed
events channel yields the zero `Event`, whose `EventType` 0 matches neither
`case EventDelete` nor `case EventPut`, so the switch applies nothing). -/

inductive ReplayMsg where
  | fromErrors (m : Option String)
  | fromEvents (e : Option Event)
deriving DecidableEq, Repr

/-- The replay loop of `initializeTransactionLog` (`main.go` lines
131-142).  Arguments mirror the Go locals: the system state mutated through
`Put`/`Delete`, the loop variables `err` and `ok`, and the remaining trace.
Returns the state, the final `err`, and the part of the trace the loop
never consumed. -/
def replayLoop : SysState → Option String → Bool → List ReplayMsg →
    SysState × Option String × List ReplayMsg
  | st, err, _, [] => (st, err, [])
  | st, err, ok, msg :: rest =>
    if ok = true ∧ err = none then
      match msg with
      | ReplayMsg.fromErrors none => replayLoop st none false rest
      | ReplayMsg.fromErrors (some m) => replayLoop st (some m) true rest
      | ReplayMsg.fromEvents none => replayLoop st err false rest
      | ReplayMsg.fromEvents (some e) =>
        if e.EventType = EventDelete then
          replayLoop (Delete st e.Key).1 (Delete st e.Key).2 true rest
        else if e.EventType = EventPut then
          replayLoop (Put st e.Key e.Value).1 (Put st e.Key e.Value).2 true rest
        else
          replayLoop st err true rest
    else (st, err, msg :: rest)

/-- `main.go` lines 120-147: after the replay loop terminates,
`logger.Run()` is invoked (line 144, unconditionally) and `err` is
returned. -/
def initTransactionLog (msgs : List ReplayMsg) (st : SysState) :
    SysState × Option String × List ReplayMsg :=
  let r := replayLoop st none true msgs
  ({ r.1 with lg := Run r.1.lg }, r.2.1, r.2.2)

inductive MainRes where
  | panicked (msg : String)
  | serving
deriving DecidableEq, Repr

/-- `main.go` lines 103-108: a non-nil error from the startup replay makes
`main` panic before any route is served. -/
def mainRun (msgs : List ReplayMsg) (st : SysState) : MainRes :=
  match (initTransactionLog msgs st).2.1 with
  | some _ => MainRes.panicked "cannot create logger"
  | none => MainRes.serving

/-- The channel deliveries of an error-free replay: every event in order,
then a closed channel (the goroutine of `ReadEvents` closes both channels
when done; the loop exits at the first closed receive). -/
def replayMsgsOf (evs : List Event) : List ReplayMsg :=
  evs.map (fun e => ReplayMsg.fromEvents (some e)) ++ [ReplayMsg.fromErrors none]

/-! ## Operation sequences

A client-visible mutation is a Put or a Delete; applying it "directly"
means calling the store operations of `main.go`. -/

inductive Op where
  | put (k v : String)
  | del (k : String)
deriving DecidableEq, Repr

def applyOp (st : SysState) : Op → SysState
  | Op.put k v => (Put st k v).1
  | Op.del k => (Delete st k).1

def applyOps : List Op → SysState → SysState
  | [], st => st
  | op :: rest, st => applyOps rest (applyOp st op)

/-- The event a submission enqueues for an operation (`WritePut` /
`WriteDelete` struct literals; `Sequence` still at its zero value). -/
def opEvent : Op → Event
  | Op.put k v => ⟨0, EventPut, k, v⟩
  | Op.del k => ⟨0, EventDelete, k, ""⟩

/-- The pure store effect of a sequence of operations. -/
def storeFoldOps : List Op → Store → Store
  | [], s => s
  | Op.put k v :: rest, s => storeFoldOps rest (storePut s k v)
  | Op.del k :: rest, s => storeFoldOps rest (storeDel s k)

/-- The store effect of one replayed event, following the switch of
`main.go` lines 135-140: `EventDelete` deletes, `EventPut` puts, any other
tag applies nothing. -/
def applyEventStore (s : Store) (e : Event) : Store :=
  if e.EventType = EventDelete then storeDel s e.Key
  else if e.EventType = EventPut then storePut s e.Key e.Value
  else s

def applyEventsStore : List Event → Store → Store
  | [], s => s
  | e :: rest, s => applyEventsStore rest (applyEventStore s e)

/-- The whole-state effect of one replayed event (store mutation plus the
re-submission performed by `Put`/`Delete`). -/
def applyEventSt (st : SysState) (e : Event) : SysState :=
  if e.EventType = EventDelete then (Delete st e.Key).1
  else if e.EventType = EventPut then (Put st e.Key e.Value).1
  else st

/-- The events that the replay loop re-submits to the logger while applying
a list of replayed events (each `Put`/`Delete` of `main.go` calls the
logger's `WritePut`/`WriteDelete`). -/
def resubmitEvents (evs : List Event) : List Event :=
  evs.filterMap fun e =>
    if e.EventType = EventDelete then some ⟨0, EventDelete, e.Key, ""⟩
    else if e.EventType = EventPut then some ⟨0, EventPut, e.Key, e.Value⟩
    else none

/-- Sequence numbers as assigned by consecutive successful inserts starting
from a table whose highest sequence is `n`. -/
def stampFrom (n : Nat) : List Event → List Event
  | [] => []
  | e :: rest => { e with Sequence := n + 1 } :: stampFrom (n + 1) rest

/-! ## Relational backend construction (`db.go` lines 25-100)

`NewPostgresTransactionLogger` opens the connection, pings it, probes for
the `transactions` table and creates it when absent.  The interaction with
the external database is injected: the outcome of `sql.Open`, of
`db.Ping()`, of the probe query (its rows, scanned as nullable strings:
`to_regclass` yields one row holding either the table name or NULL), and
`rows.Err()` after the probe's row loop.

Go-level semantics that the model must keep:
- `rows.Scan(&result)` has its error DISCARDED by the source (`db.go`
  line 79); a NULL row leaves `result` unchanged, a non-NULL row stores
  its string.
- `db.go` line 73 defers `rows.Close()` BEFORE checking the query error;
  when `Query` fails it returns a nil `*sql.Rows`, and calling `Close` on a
  nil `*sql.Rows` dereferences a nil pointer, so the deferred call panics
  when the function returns.  A Go outcome is therefore either a returned
  value or a panic. -/

inductive GoRes (α : Type) where
  | ret (a : α)
  | panicked (msg : String)
deriving DecidableEq, Repr

def TABLE : String := "transactions"

def nilPointerPanic : String :=
  "runtime error: invalid memory address or nil pointer dereference"

/-- The scan loop of `verifyTableExists` (`db.go` lines 78-80): advance
while rows remain and `result` is not yet the table name; each scan either
stores the row's string or, on a NULL row, fails with its error ignored,
leaving `result` unchanged. -/
def probeScanLoop : String → List (Option String) → String
  | result, [] => result
  | result, r :: rest =>
    if result = TABLE then result else probeScanLoop (r.getD result) rest

/-- `db.go` lines 68-83.  `probeRows` is the outcome of the
`SELECT to_regclass(...)` query; `probeRowsErr` is `rows.Err()` after the
loop.  On a failed query the deferred `rows.Close()` on the nil `rows`
panics; otherwise the function returns `(result == TABLE, rows.Err())`. -/
def verifyTableExists (probeRows : Except String (List (Option String)))
    (probeRowsErr : Option String) : GoRes (Bool × Option String) :=
  match probeRows with
  | Except.error _ => GoRes.panicked nilPointerPanic
  | Except.ok rows => GoRes.ret (probeScanLoop "" rows = TABLE, probeRowsErr)

/-- `db.go` lines 88-93, the DDL template of `createTable` with its `%s`
verb, exactly as written in the source (including the trailing comma before
the closing parenthesis). -/
def createCommand : String :=
  "CREATE TABLE %s(\n\t\tsequence BIGSERIAL PRIMARY KEY,\n\t\tevent_type SMALLINT,\n\t\tkey TEXT,\n\t\tvalue TEXT,\n\t);"

/-- `fmt.Sprintf` restricted to `%s` verbs with one argument, as used by
`createTable`. -/
def sprintfChars : List Char → List Char → List Char
  | [], _ => []
  | '%' :: 's' :: rest, arg => arg ++ sprintfChars rest arg
  | c :: rest, arg => c :: sprintfChars rest arg

def sprintfS (fmtStr arg : String) : String :=
  ⟨sprintfChars fmtStr.data arg.data⟩

/-- The query string `createTable` executes (`db.go` line 95). -/
def createQuery : String := sprintfS createCommand TABLE

/-- Split a character list at commas. -/
def splitComma : List Char → List (List Char)
  | [] => [[]]
  | ',' :: rest => [] :: splitComma rest
  | c :: rest =>
    match splitComma rest with
    | [] => [[c]]
    | col :: cols => (c :: col) :: cols

/-- The column definitions of a `CREATE TABLE` statement: the text between
the opening and the closing parenthesis, split at commas. -/
def ddlColumns (q : String) : List (List Char) :=
  splitComma (((q.data.dropWhile fun c => c ≠ '(').drop 1).takeWhile fun c => c ≠ ')')

/-- Modelled from the spec: whether Postgres accepts a `CREATE TABLE`
statement.  The database engine is an external collaborator; section 9 of
the spec records that engines reject a column list with a trailing comma
before the closing parenthesis (an empty column definition), and section 6
gives the corrected schema.  We model acceptance as: every comma-separated
column definition is non-blank. -/
def ddlAccepted (q : String) : Bool :=
  (ddlColumns q).all fun col => !(col.all Char.isWhitespace)

/-- `db.go` lines 85-100: execute the formatted `CREATE TABLE` statement
against the engine and return the driver's verdict. -/
def createTable : Except String Unit :=
  if ddlAccepted createQuery then Except.ok ()
  else Except.error "pq: syntax error at or near \x22)\x22"

/-- Result of a construction attempt: the value returned to the caller
(`Except.ok` = a logger, `Except.error` = the wrapped error) and whether
`createTable` was attempted. -/
structure ConstructResult where
  res : Except String Unit
  createAttempted : Bool
deriving Repr

/-- `db.go` lines 25-54.  `openRes` is the outcome of `sql.Open`, `pingRes`
of `db.Ping()`; the probe arguments feed `verifyTableExists`. -/
def NewPostgresTransactionLogger (openRes pingRes : Option String)
    (probeRows : Except String (List (Option String)))
    (probeRowsErr : Option String) : GoRes ConstructResult :=
  match openRes with
  | some m => GoRes.ret ⟨Except.error ("failed to open db: " ++ m), false⟩
  | none =>
    match pingRes with
    | some m => GoRes.ret ⟨Except.error ("failed to open db connection: " ++ m), false⟩
    | none =>
      match verifyTableExists probeRows probeRowsErr with
      | GoRes.panicked m => GoRes.panicked m
      | GoRes.ret (tblExists, verr) =>
        match verr with
        | some m => GoRes.ret ⟨Except.error ("failed to verify table exists: " ++ m), false⟩
        | none =>
          if tblExists then GoRes.ret ⟨Except.ok (), false⟩
          else
            match createTable with
            | Except.ok _ => GoRes.ret ⟨Except.ok (), true⟩
            | Except.error m =>
              GoRes.ret ⟨Except.error ("failed to create table: " ++ m), true⟩

/-! ## Derived scenario definitions -/

/-- The sequential application of replayed events through the store
operations of `main.go`. -/
def applyEventsSt : List Event → SysState → SysState
  | [], st => st
  | e :: rest, st => applyEventsSt rest (applyEventSt st e)

/-- The durable log produced by submitting a sequence of operations to a
fresh backend and letting the writer drain the queue with every insert
succeeding. -/
def persistedLog (ops : List Op) : List Event :=
  (runWriter true ((applyOps ops freshSys).lg.pending.map fun e => (e, none))
    (WriterRun.init [])).log

/-- A fresh process start against a given durable log: `ReadEvents` streams
the ordered rows without failures, and `initializeTransactionLog` replays
them into an empty store. -/
def replayRestart (db : List Event) : SysState × Option String × List ReplayMsg :=
  initTransactionLog
    (replayMsgsOf (ReadEvents (Except.ok ((selectOrdered db).map ScanRow.ok)) none).1)
    freshSys

/-- A replay trace that delivers `evs`, then an error, then arbitrary
further deliveries. -/
def errorTrace (evs : List Event) (m : String) (rest : List ReplayMsg) : List ReplayMsg :=
  evs.map (fun e => ReplayMsg.fromEvents (some e)) ++ ReplayMsg.fromErrors (some m) :: rest

/-! ## Helper lemmas -/

lemma replayLoop_err_stop (st : SysState) (m : String) (msgs : List ReplayMsg) :
    replayLoop st (some m) true msgs = (st, some m, msgs) := by
  cases msgs <;> simp [replayLoop]

lemma replayLoop_notok_stop (st : SysState) (err : Option String) (msgs : List ReplayMsg) :
    replayLoop st err false msgs = (st, err, msgs) := by
  cases msgs <;> simp [replayLoop]

lemma replayLoop_cons_event (st : SysState) (e : Event) (msgs : List ReplayMsg) :
    replayLoop st none true (ReplayMsg.fromEvents (some e) :: msgs)
      = replayLoop (applyEventSt st e) none true msgs := by
  by_cases h1 : e.EventType = EventDelete
  · simp [replayLoop, applyEventSt, h1, Delete]
  · by_cases h2 : e.EventType = EventPut
    · simp [replayLoop, applyEventSt, h1, h2, Put, EventPut, EventDelete]
    · simp [replayLoop, applyEventSt, h1, h2]

lemma replayLoop_events_error (evs : List Event) (m : String) (rest : List ReplayMsg) :
    ∀ st, replayLoop st none true (errorTrace evs m rest) = (applyEventsSt evs st, some m, rest) := by
  induction evs with
  | nil =>
    intro st
    simp [errorTrace, replayLoop, applyEventsSt, replayLoop_err_stop]
  | cons e evs ih =>
    intro st
    simp only [errorTrace, List.map_cons, List.cons_append, replayLoop_cons_event]
    simpa [errorTrace, applyEventsSt] using ih (applyEventSt st e)

lemma replayLoop_events_close (evs : List Event) (rest : List ReplayMsg) :
    ∀ st, replayLoop st none true
        (evs.map (fun e => ReplayMsg.fromEvents (some e)) ++ ReplayMsg.fromErrors none :: rest)
      = (applyEventsSt evs st, none, rest) := by
  induction evs with
  | nil =>
    intro st
    simp [replayLoop, applyEventsSt, replayLoop_notok_stop]
  | cons e evs ih =>
    intro st
    simp only [List.map_cons, List.cons_append, replayLoop_cons_event]
    simpa [applyEventsSt] using ih (applyEventSt st e)

lemma applyEventSt_store (st : SysState) (e : Event) :
    (applyEventSt st e).store = applyEventStore st.store e := by
  by_cases h1 : e.EventType = EventDelete
  · simp [applyEventSt, applyEventStore, h1, Delete]
  · by_cases h2 : e.EventType = EventPut
    · simp [applyEventSt, applyEventStore, h1, h2, Put, EventPut, EventDelete]
    · simp [applyEventSt, applyEventStore, h1, h2]

lemma applyEventsSt_store (evs : List Event) :
    ∀ st, (applyEventsSt evs st).store = applyEventsStore evs st.store := by
  induction evs with
  | nil => intro st; simp [applyEventsSt, applyEventsStore]
  | cons e evs ih =>
    intro st
    simp [applyEventsSt, applyEventsStore, ih, applyEventSt_store]

lemma applyOps_store (ops : List Op) :
    ∀ st, (applyOps ops st).store = storeFoldOps ops st.store := by
  induction ops with
  | nil => intro st; simp [applyOps, storeFoldOps]
  | cons op ops ih =>
    intro st
    cases op <;> simp [applyOps, storeFoldOps, applyOp, Put, Delete, ih]

lemma applyOps_pending (ops : List Op) :
    ∀ st, (applyOps ops st).lg.pending = st.lg.pending ++ ops.map opEvent := by
  induction ops with
  | nil => intro st; simp [applyOps]
  | cons op ops ih =>
    intro st
    cases op <;>
      simp [applyOps, applyOp, Put, Delete, WritePut, WriteDelete, opEvent, ih]

lemma runWriter_ok_jobs (d : Bool) (evs : List Event) :
    ∀ w : WriterRun, runWriter d (evs.map fun e => (e, none)) w
      = { w with log := w.log ++ stampFrom w.log.length evs,
                 attempted := w.attempted + evs.length } := by
  induction evs with
  | nil => intro w; simp [runWriter, stampFrom]
  | cons e evs ih =>
    intro w
    simp only [List.map_cons, runWriter, insertRow, ih, stampFrom]
    simp [List.append_assoc, Nat.add_assoc, Nat.add_comm, Nat.add_left_comm]

lemma stampFrom_seq_gt (evs : List Event) :
    ∀ n e, e ∈ stampFrom n evs → n < e.Sequence := by
  induction evs with
  | nil => intro n e he; simp [stampFrom] at he
  | cons x evs ih =>
    intro n e he
    simp only [stampFrom, List.mem_cons] at he
    rcases he with rfl | he
    · simp
    · exact Nat.lt_trans (Nat.lt_succ_self n) (ih (n + 1) e he)

lemma stampFrom_sorted (evs : List Event) :
    ∀ n, List.Sorted (fun a b : Event => a.Sequence ≤ b.Sequence) (stampFrom n evs) := by
  induction evs with
  | nil => intro n; simp [stampFrom]
  | cons x evs ih =>
    intro n
    simp only [stampFrom, List.sorted_cons]
    refine ⟨fun b hb => ?_, ih (n + 1)⟩
    exact Nat.le_of_lt (stampFrom_seq_gt evs (n + 1) b hb)

lemma selectOrdered_stampFrom (evs : List Event) (n : Nat) :
    selectOrdered (stampFrom n evs) = stampFrom n evs :=
  List.Sorted.insertionSort_eq (stampFrom_sorted evs n)

lemma readRows_ok (evs : List Event) :
    readRows (evs.map ScanRow.ok) none = (evs, []) := by
  induction evs with
  | nil => simp [readRows]
  | cons e evs ih => simp [readRows, ih]

lemma applyEventsStore_stampFrom (evs : List Event) :
    ∀ n s, applyEventsStore (stampFrom n evs) s = applyEventsStore evs s := by
  induction evs with
  | nil => intro n s; simp [stampFrom]
  | cons e evs ih =>
    intro n s
    simp only [stampFrom, applyEventsStore]
    rw [ih]
    rfl

lemma applyEventsStore_opEvents (ops : List Op) :
    ∀ s, applyEventsStore (ops.map opEvent) s = storeFoldOps ops s := by
  induction ops with
  | nil => intro s; simp [applyEventsStore, storeFoldOps]
  | cons op ops ih =>
    intro s
    cases op <;>
      simp [applyEventsStore, storeFoldOps, opEvent, applyEventStore, ih,
        EventDelete, EventPut]

lemma storeDel_absent (m : Store) (k : String) :
    storeGet m k = none → storeDel m k = m := by
  induction m with
  | nil => intro _; rfl
  | cons p rest ih =>
    intro h
    simp only [storeGet] at h
    by_cases hk : p.1 = k
    · simp [hk] at h
    · have h' : storeGet rest k = none := by simpa [hk] using h
      have hrest := ih h'
      simp only [storeDel, List.filter_cons] at hrest ⊢
      rw [hrest]
      simp [hk]

lemma readRows_bad (evs : List Event) (m : String) (rest : List ScanRow)
    (rowsErr : Option String) :
    readRows (evs.map ScanRow.ok ++ ScanRow.bad m :: rest) rowsErr
      = (evs, ["error reading row: " ++ m]) := by
  induction evs with
  | nil => simp [readRows]
  | cons e evs ih => simp [readRows, ih]

/-! ## Claims -/

/-- C1: for every finite sequence of Put/Delete operations submitted to a
fresh backend, replaying the resulting log (streamed by `ReadEvents` in
ascending sequence order) into an empty store yields exactly the store
state obtained by applying the same operations directly in the same order;
the stream raises no error and the replay returns no error. -/
theorem replay_matches_direct_application (ops : List Op) :
    (replayRestart (persistedLog ops)).1.store = (applyOps ops freshSys).store
    ∧ (ReadEvents (Except.ok ((selectOrdered (persistedLog ops)).map ScanRow.ok)) none).2 = []
    ∧ (replayRestart (persistedLog ops)).2.1 = none := by
  have hp : (applyOps ops freshSys).lg.pending = ops.map opEvent := by
    simpa [freshSys, freshLogger] using applyOps_pending ops freshSys
  have hlog : persistedLog ops = stampFrom 0 (ops.map opEvent) := by
    rw [persistedLog, hp, runWriter_ok_jobs]
    simp [WriterRun.init]
  have hread : ReadEvents
      (Except.ok ((selectOrdered (persistedLog ops)).map ScanRow.ok)) none
      = (stampFrom 0 (ops.map opEvent), []) := by
    rw [hlog, selectOrdered_stampFrom]
    simp [ReadEvents, readRows_ok]
  have hloop := replayLoop_events_close (stampFrom 0 (ops.map opEvent)) [] freshSys
  refine ⟨?_, by rw [hread], ?_⟩
  · rw [replayRestart, hread]
    simp only [replayMsgsOf, initTransactionLog, hloop]
    simp [applyEventsSt_store, applyEventsStore_stampFrom, applyEventsStore_opEvents,
      applyOps_store, freshSys, freshLogger]
  · rw [replayRestart, hread]
    simp only [replayMsgsOf, initTransactionLog, hloop]

/-- C2: the claim says replaying an event does not submit anything to the
async write pipeline and leaves the log at exactly its N events.  The code
violates this: `main.go`'s `Put`/`Delete`, which the replay loop calls,
unconditionally call the logger's `WritePut`/`WriteDelete`, so each
replayed event is re-submitted.  Evaluated at a one-event log: after
replay the submission queue holds a copy of the replayed event, and once
the activated writer drains it the log holds two events (the replayed
`Put a b` twice). -/
theorem replay_resubmits_events_to_pipeline :
    (initTransactionLog (replayMsgsOf [⟨1, EventPut, "a", "b"⟩]) freshSys).1.lg.pending
      = [⟨0, EventPut, "a", "b"⟩]
    ∧ (runWriter true
        ((initTransactionLog (replayMsgsOf [⟨1, EventPut, "a", "b"⟩]) freshSys).1.lg.pending.map
          fun e => (e, none))
        (WriterRun.init [⟨1, EventPut, "a", "b"⟩])).log
      = [⟨1, EventPut, "a", "b"⟩, ⟨2, EventPut, "a", "b"⟩] := by decide

/-- C3 counterexample: a replay trace that terminates with an error (the
error channel delivers a failure) still reaches `logger.Run()` — the
pipeline is activated — refuting the claim that the write pipeline is
never activated when replay terminates with an error. -/
theorem run_invoked_despite_replay_error :
    (initTransactionLog [ReplayMsg.fromErrors (some "transaction log read failure: bad record")]
        freshSys).2.1 = some "transaction log read failure: bad record"
    ∧ (initTransactionLog [ReplayMsg.fromErrors (some "transaction log read failure: bad record")]
        freshSys).1.lg.activated = true := by decide

/-- C3 amended: `Run()` is invoked exactly once, after the replay loop
terminates, regardless of whether the loop ended by channel closure or by
receiving an error; an error received during replay is still returned to
the caller, but the write pipeline is activated nonetheless. -/
theorem run_always_invoked_after_replay_loop :
    (∀ (msgs : List ReplayMsg) (st : SysState),
      (initTransactionLog msgs st).1.lg.activated = true)
    ∧ (∀ (evs : List Event) (m : String) (rest : List ReplayMsg) (st : SysState),
      (initTransactionLog (errorTrace evs m rest) st).2.1 = some m
      ∧ (initTransactionLog (errorTrace evs m rest) st).1.lg.activated = true) := by
  constructor
  · intro msgs st
    simp [initTransactionLog, Run]
  · intro evs m rest st
    constructor <;> simp [initTransactionLog, Run, replayLoop_events_error]

/-- C4: the claim says a missing `transactions` table is created and
construction succeeds.  The code's `createTable` executes a `CREATE TABLE`
statement whose column list ends in a comma before the closing parenthesis
(an empty column definition, which Postgres rejects), so against a database
without the table the constructor returns a creation error instead of
succeeding.  The second conjunct shows the half of the claim that holds:
when the table exists, no creation is attempted and construction succeeds;
the third pins the cause, the malformed generated DDL. -/
theorem create_table_fails_on_malformed_ddl :
    NewPostgresTransactionLogger none none (Except.ok [none]) none
      = GoRes.ret ⟨Except.error ("failed to create table: "
          ++ "pq: syntax error at or near \x22)\x22"), true⟩
    ∧ NewPostgresTransactionLogger none none (Except.ok [some "transactions"]) none
      = GoRes.ret ⟨Except.ok (), false⟩
    ∧ ddlAccepted createQuery = false :=
  ⟨rfl, rfl, by decide⟩

/-- C5: the claim says a failed ping or probe yields a non-nil error
without a panic.  The ping branch does return an error (second conjunct),
but when the probe query fails, `verifyTableExists` has already deferred
`rows.Close()` on the nil `rows`, so the constructor panics with a nil
pointer dereference instead of returning the error (first conjunct). -/
theorem probe_failure_panics_not_errors :
    NewPostgresTransactionLogger none none (Except.error "connection reset by peer") none
      = GoRes.panicked nilPointerPanic
    ∧ NewPostgresTransactionLogger none (some "dial error") (Except.ok []) none
      = GoRes.ret ⟨Except.error ("failed to open db connection: " ++ "dial error"), false⟩ :=
  ⟨rfl, rfl⟩

/-- C6: when a row fails to decode during replay streaming, `ReadEvents`
has delivered every valid event preceding the failure, emits exactly one
error on the error channel, and delivers no event at or after the failing
row. -/
theorem read_events_stops_at_first_bad_row (evs : List Event) (m : String)
    (rest : List ScanRow) (rowsErr : Option String) :
    ReadEvents (Except.ok (evs.map ScanRow.ok ++ ScanRow.bad m :: rest)) rowsErr
      = (evs, ["error reading row: " ++ m]) := by
  simp [ReadEvents, readRows_bad]

/-- C7: an error received during replay terminates the loop immediately —
the events delivered before it are the only ones applied to the store, the
deliveries after it are never consumed — and the error is returned by
`initializeTransactionLog`, upon which `main` panics instead of serving
traffic. -/
theorem replay_error_is_fatal (evs : List Event) (m : String) (rest : List ReplayMsg)
    (st : SysState) :
    (initTransactionLog (errorTrace evs m rest) st).1.store = applyEventsStore evs st.store
    ∧ (initTransactionLog (errorTrace evs m rest) st).2.1 = some m
    ∧ (initTransactionLog (errorTrace evs m rest) st).2.2 = rest
    ∧ mainRun (errorTrace evs m rest) st = MainRes.panicked "cannot create logger" := by
  have h := replayLoop_events_error evs m rest st
  refine ⟨?_, ?_, ?_, ?_⟩ <;>
    simp [initTransactionLog, mainRun, h, applyEventsSt_store]

/-- C8 counterexample: with the capacity-1 error channel never drained,
two consecutive append failures block the writer on its second error send:
only two events are ever dequeued and attempted, the third submitted event
is left in the queue forever, refuting the claim that every subsequently
submitted event is attempted regardless of whether the error channel has
been drained. -/
theorem writer_blocks_on_second_undrained_failure :
    (runWriter false
      [(⟨0, EventPut, "a", "1"⟩, some "insert failed"),
       (⟨0, EventPut, "b", "2"⟩, some "insert failed"),
       (⟨0, EventPut, "c", "3"⟩, none)]
      (WriterRun.init [])).attempted = 2
    ∧ (runWriter false
      [(⟨0, EventPut, "a", "1"⟩, some "insert failed"),
       (⟨0, EventPut, "b", "2"⟩, some "insert failed"),
       (⟨0, EventPut, "c", "3"⟩, none)]
      (WriterRun.init [])).leftover = [⟨0, EventPut, "c", "3"⟩]
    ∧ (runWriter false
      [(⟨0, EventPut, "a", "1"⟩, some "insert failed"),
       (⟨0, EventPut, "b", "2"⟩, some "insert failed"),
       (⟨0, EventPut, "c", "3"⟩, none)]
      (WriterRun.init [])).errBuf = ["insert failed"] := by decide

/-- C8 amended: every append failure is pushed onto the error channel and,
as long as the channel is drained by a consumer, the writer never halts:
every submitted event is dequeued and its append attempted, no event is
left over, and every failure is reported in order. -/
theorem writer_continues_when_error_channel_drained
    (jobs : List (Event × Option String)) (w : WriterRun) :
    (runWriter true jobs w).attempted = w.attempted + jobs.length
    ∧ (runWriter true jobs w).leftover = w.leftover
    ∧ (runWriter true jobs w).reported = w.reported ++ jobs.filterMap Prod.snd := by
  induction jobs generalizing w with
  | nil => simp [runWriter]
  | cons j jobs ih =>
    obtain ⟨e, res⟩ := j
    cases res with
    | none =>
      have h := ih { w with attempted := w.attempted + 1, log := insertRow w.log e }
      refine ⟨?_, ?_, ?_⟩ <;> simp [runWriter, h.1, h.2.1, h.2.2] <;> omega
    | some msg =>
      have h := ih { w with attempted := w.attempted + 1, reported := w.reported ++ [msg] }
      refine ⟨?_, ?_, ?_⟩ <;> simp [runWriter, h.1, h.2.1, h.2.2] <;> omega

/-- C9: `WritePut` and `WriteDelete` only enqueue the corresponding event
on the submission queue and leave the durable log untouched — no database
I/O is performed and the event is not durable when the call returns. -/
theorem write_put_write_delete_enqueue_only (l : LoggerState) (k v : String) :
    WritePut l k v = { l with pending := l.pending ++ [⟨0, EventPut, k, v⟩] }
    ∧ (WritePut l k v).log = l.log
    ∧ WriteDelete l k = { l with pending := l.pending ++ [⟨0, EventDelete, k, ""⟩] }
    ∧ (WriteDelete l k).log = l.log :=
  ⟨rfl, rfl, rfl, rfl⟩

/-- C10: the store operations `Put` and `Delete` always return nil, and
`Delete` on a key absent from the store leaves the store unchanged while
still submitting a Delete event to the transaction log. -/
theorem put_delete_always_return_nil (st : SysState) (k v : String) :
    (Put st k v).2 = none
    ∧ (Delete st k).2 = none
    ∧ (storeGet st.store k = none →
        (Delete st k).1.store = st.store
        ∧ (Delete st k).1.lg.pending = st.lg.pending ++ [⟨0, EventDelete, k, ""⟩]) := by
  refine ⟨rfl, rfl, fun h => ⟨?_, rfl⟩⟩
  simpa [Delete] using storeDel_absent st.store k h

/-- Witness for C10 at a concrete absent key: the fresh empty store. -/
theorem put_delete_always_return_nil_witness :
    (Put freshSys "k" "v").2 = none
    ∧ (Delete freshSys "k").2 = none
    ∧ (Delete freshSys "k").1.store = freshSys.store
    ∧ (Delete freshSys "k").1.lg.pending
        = freshSys.lg.pending ++ [⟨0, EventDelete, "k", ""⟩] := by
  have h := put_delete_always_return_nil freshSys "k" "v"
  have h3 := h.2.2 rfl
  exact ⟨h.1, h.2.1, h3.1, h3.2⟩

end KVLog
